import Mathlib

/-!
Shallow embedding of the VacLab Remote Execution Orchestrator
(src/app/api/model-run/route.ts, isolated-execution variant;
src/app/api/session/route.ts; src/app/lib/sessionStore.ts; the
credential-check route issuing session tokens), together with proofs of
the specification claims about it.

Conventions: JavaScript strings are modelled as Lean `String` over their
characters; `Date.now()` millisecond clocks are `Int`; the in-memory
`Map` objects are functions `String → Option _`; `setTimeout` eviction
is modelled as an explicit list of scheduled (key, fireTime) deletions.
-/

namespace VacLab

/-! ## Generic JavaScript string helpers -/

/-- The whitespace characters removed by JavaScript `String.prototype.trim`
(the ASCII whitespace class plus no-break space; further exotic Unicode
space characters do not occur in the modelled traffic). -/
def jsWs (c : Char) : Bool :=
  c == ' ' || c == '\t' || c == '\n' || c == '\r' ||
  c == '\x0b' || c == '\x0c' || c == ' '

/-- Trim `jsWs` characters from both ends of a character list. -/
def trimChars (cs : List Char) : List Char :=
  ((cs.dropWhile jsWs).reverse.dropWhile jsWs).reverse

/-- JavaScript `s.trim()`. -/
def jsTrim (s : String) : String :=
  String.mk (trimChars s.toList)

/-- Does `needle` occur as a contiguous substring of the list? (JavaScript
`String.prototype.includes`.) -/
def occursIn (needle : List Char) : List Char → Bool
  | [] => needle.isEmpty
  | c :: t => needle.isPrefixOf (c :: t) || occursIn needle t

/-- JavaScript `hay.includes(needle)`. -/
def hasSubstr (hay needle : String) : Bool :=
  occursIn needle.toList hay.toList

/-- JavaScript `s.padStart(2, '0')`. -/
def padStart2 (s : String) : String :=
  if s.length < 2 then String.mk (List.replicate (2 - s.length) '0') ++ s else s

/-- JavaScript `s.slice(-2)`: the final two characters (or the whole
string when shorter). -/
def lastTwo (s : String) : String :=
  String.mk ((s.toList.reverse.take 2).reverse)

/-- JavaScript `name.replace(/\.[^/.]+$/, "")`: strip a final extension,
i.e. a dot followed by one or more characters none of which is a slash
or a dot, at the end of the string. -/
def stripExt (s : String) : String :=
  let r := s.toList.reverse
  let ext := r.takeWhile (fun c => !(c == '.') && !(c == '/'))
  match r.drop ext.length with
  | '.' :: rest => if ext.length > 0 then String.mk rest.reverse else s
  | _ => s

/-! ## Run-name sanitization (route.ts line 239) -/

/-- Characters kept by the regex `[^a-zA-Z0-9_-]` replacement:
ASCII letters, digits, underscore and hyphen. -/
def allowedChar (c : Char) : Bool :=
  (decide (97 ≤ c.toNat) && decide (c.toNat ≤ 122)) ||
  (decide (65 ≤ c.toNat) && decide (c.toNat ≤ 90)) ||
  (decide (48 ≤ c.toNat) && decide (c.toNat ≤ 57)) ||
  c == '_' || c == '-'

/-- One character of `runName.replace(/[^a-zA-Z0-9_-]/g, '_')`. -/
def sanChar (c : Char) : Char :=
  if allowedChar c then c else '_'

/-- `runName.replace(/[^a-zA-Z0-9_-]/g, '_').substring(0, 50)`
(route.ts line 239). -/
def sanitizeRunName (s : String) : String :=
  String.mk ((s.toList.map sanChar).take 50)

/-! ## Timestamp and isolated folder name (route.ts lines 266-277) -/

/-- The wall-clock fields read off a JavaScript `Date`:
`getMonth()` (0-based), `getDate()`, `getFullYear()`, `getHours()`,
`getMinutes()`. -/
structure JsDate where
  monthIndex : Nat
  dayOfMonth : Nat
  fullYear : Nat
  hours : Nat
  minutes : Nat
deriving DecidableEq

/-- The `MM_DD_YY-HH_MM` timestamp built at route.ts lines 267-273. -/
def timestampString (d : JsDate) : String :=
  padStart2 (toString (d.monthIndex + 1)) ++ "_" ++
  padStart2 (toString d.dayOfMonth) ++ "_" ++
  lastTwo (toString d.fullYear) ++ "-" ++
  padStart2 (toString d.hours) ++ "_" ++
  padStart2 (toString d.minutes)

/-- The isolated folder name for a raw run name: the name is sanitized at
route.ts line 239 and concatenated with the timestamp at line 276
(`${runName}-${timestamp}`). -/
def planFolderName (rawRunName : String) (d : JsDate) : String :=
  sanitizeRunName rawRunName ++ "-" ++ timestampString d

/-! ## Claim C8: sanitization is idempotent -/

theorem sanChar_idem (c : Char) : sanChar (sanChar c) = sanChar c := by
  by_cases h : allowedChar c = true
  · simp [sanChar, h]
  · simp [sanChar, h]

theorem map_sanChar_idem (l : List Char) :
    (l.map sanChar).map sanChar = l.map sanChar := by
  induction l with
  | nil => rfl
  | cons c t ih => simp [sanChar_idem, ih]

/-- C8: for every string `x`, `sanitize (sanitize x) = sanitize x`, where
sanitize replaces every character outside the allowed alphanumeric-plus-
separator set with an underscore and truncates to at most 50 characters. -/
theorem C8_sanitize_idempotent (x : String) :
    sanitizeRunName (sanitizeRunName x) = sanitizeRunName x := by
  unfold sanitizeRunName
  congr 1
  show (((x.toList.map sanChar).take 50).map sanChar).take 50
      = (x.toList.map sanChar).take 50
  rw [List.map_take, map_sanChar_idem, List.take_take, min_self]

/-! ## Claim C3: the isolated folder name -/

/-- C3: for raw run name "Foo Bar!" and planning time 2024-06-01T14:05
(month index 5, day 1, hour 14, minute 5) the isolated folder name is
exactly `Foo_Bar_-06_01_24-14_05`; in general the name is the sanitized
run name, a hyphen, and the `MM_DD_YY-HH_MM` timestamp with zero-padded
fields and a two-digit year. -/
theorem C3_folder_name :
    planFolderName "Foo Bar!" ⟨5, 1, 2024, 14, 5⟩ = "Foo_Bar_-06_01_24-14_05"
    ∧ ∀ (r : String) (d : JsDate),
        planFolderName r d =
          sanitizeRunName r ++ "-" ++
          (padStart2 (toString (d.monthIndex + 1)) ++ "_" ++
           padStart2 (toString d.dayOfMonth) ++ "_" ++
           lastTwo (toString d.fullYear) ++ "-" ++
           padStart2 (toString d.hours) ++ "_" ++
           padStart2 (toString d.minutes)) :=
  ⟨by decide, fun r d => rfl⟩

/-! ## JSON values and the run-name extraction (route.ts lines 180-244) -/

/-- Parsed JSON values, the possible results of `JSON.parse`. -/
inductive Json where
  | null
  | bool (b : Bool)
  | num (n : Int)
  | str (s : String)
  | arr (elems : List Json)
  | obj (fields : List (String × Json))

/-- JavaScript property access `j[k]` (`undefined` is `none`); on
non-objects every property used here is `undefined`. -/
def Json.getField : Json → String → Option Json
  | .obj fs, k => fs.lookup k
  | _, _ => none

/-- JavaScript truthiness of a value. -/
def Json.truthy : Json → Bool
  | .null => false
  | .bool b => b
  | .num n => !(n == 0)
  | .str s => !(s == "")
  | .arr _ => true
  | .obj _ => true

/-- Truthiness of a possibly-`undefined` value. -/
def jTruthy : Option Json → Bool
  | none => false
  | some j => j.truthy

/-- JavaScript `typeof v === 'object'` (true for objects, arrays and
`null`). -/
def typeofObject : Json → Bool
  | .obj _ => true
  | .arr _ => true
  | .null => true
  | _ => false

mutual

/-- JavaScript string coercion `${v}` / `String(v)`, with array elements
joined by commas and `null` elements rendered empty inside a join. -/
def jsToString : Json → String
  | .null => "null"
  | .bool true => "true"
  | .bool false => "false"
  | .num n => toString n
  | .str s => s
  | .arr xs => jsJoinArr xs
  | .obj _ => "[object Object]"

/-- `Array.prototype.join(",")` over coerced elements. -/
def jsJoinArr : List Json → String
  | [] => ""
  | [Json.null] => ""
  | [x] => jsToString x
  | Json.null :: y :: xs => "," ++ jsJoinArr (y :: xs)
  | x :: y :: xs => jsToString x ++ "," ++ jsJoinArr (y :: xs)
end

/-- The alternative key spellings tried inside `gitParams`
(route.ts line 210). -/
def possibleKeys : List String :=
  ["branchname", "branch_name", "branch-name", "branch", "BRANCHNAME"]

/-- First truthy value of `g[k]` over a key list (the `for` loop at
route.ts lines 211-217). -/
def firstTruthy (g : Json) : List String → Option Json
  | [] => none
  | k :: ks =>
    let v := g.getField k
    if jTruthy v then v else firstTruthy g ks

/-- The branch-name extraction chain of route.ts lines 190-236: the first
truthy candidate among `gitParams.branchName`, `gitParms.branchName`, the
root `branchName`, the alternative key spellings inside a truthy object
`gitParams`, `run_name`, `name`, and finally a non-default file name with
its extension stripped. `none` means the chain found nothing and
`runName` keeps its default. -/
def extractValue (fileName : String) (j : Json) : Option Json :=
  let gp := j.getField "gitParams"
  let b1 := gp.bind (fun g => g.getField "branchName")
  if jTruthy b1 then b1
  else
    let b2 := (j.getField "gitParms").bind (fun g => g.getField "branchName")
    if jTruthy b2 then b2
    else
      let b3 := j.getField "branchName"
      if jTruthy b3 then b3
      else if jTruthy gp then
        match gp with
        | some g => if typeofObject g then firstTruthy g possibleKeys else none
        | none => none
      else
        let r1 := j.getField "run_name"
        if jTruthy r1 then r1
        else
          let r2 := j.getField "name"
          if jTruthy r2 then r2
          else if !(fileName == "") && !(fileName == "data.json") then
            some (.str (stripExt fileName))
          else none

/-- Is the parsed document the JSON literal `null`? -/
def Json.isNull : Json → Bool
  | .null => true
  | _ => false

/-- The final `runName` after the `try { ... } catch` of route.ts lines
183-243, given a successfully parsed descriptor. A `null` document makes
the very first property access throw, so the caught default survives
unsanitized; a found string value is sanitized at line 239; a found
non-string value makes `runName.replace` throw inside the `try`, so it
survives the catch and is later string-coerced by the template literals. -/
def runNameFromParsed (fileName : String) (j : Json) : String :=
  if j.isNull then "DefaultRun"
  else
    match extractValue fileName j with
    | some (.str s) => sanitizeRunName s
    | some v => jsToString v
    | none => sanitizeRunName "DefaultRun"

/-- An uploaded descriptor file: its client name and the result of
`JSON.parse` on its text (`none` when parsing throws). -/
structure FileEntry where
  name : String
  parsed : Option Json

/-- The `runName` computed by route.ts lines 180-244 from the optional
uploaded file. -/
def computeRunName : Option FileEntry → String
  | none => "DefaultRun"
  | some fe =>
    match fe.parsed with
    | none => "DefaultRun"
    | some j => runNameFromParsed fe.name j

/-! ## The POST request model and pre-connection pipeline
(route.ts lines 169-316) -/

/-- The three fields read out of the parsed `connectionDetails` JSON;
`none` models an absent (`undefined`) field. -/
structure ConnDetails where
  ip : Option String
  hostname : Option String
  password : Option String

/-- The parts of the multipart request the pre-connection phase reads:
the optional descriptor file and the optional parsed connection details
(`none` when the `connectionDetails` string is absent or fails to
parse). -/
structure PostRequest where
  file : Option FileEntry
  conn : Option ConnDetails

/-- JavaScript falsiness of a possibly-undefined string (`!x`). -/
def jsFalsy : Option String → Bool
  | none => true
  | some s => s == ""

def reqIp (r : PostRequest) : Option String := r.conn.bind (fun c => c.ip)

def reqHostname (r : PostRequest) : Option String := r.conn.bind (fun c => c.hostname)

def reqPassword (r : PostRequest) : Option String := r.conn.bind (fun c => c.password)

/-- The `activeExecutions` map: dedup key to `Date.now()` of the last
recorded execution. -/
def GuardMap := String → Option Int

/-- The shell pipeline assembled at route.ts lines 348-357. -/
def commandList (isolatedPath sourcePath : String) : List String :=
  ["mkdir -p \"" ++ isolatedPath ++ "\"",
   "cp -r \"" ++ sourcePath ++ "\"/* \"" ++ isolatedPath ++ "/\" 2>/dev/null || echo \"Warning: Some files may not have been copied\"",
   "cd \"" ++ isolatedPath ++ "\"",
   "echo \"Isolated environment created at: " ++ isolatedPath ++ "\"",
   "echo \"Files copied from: " ++ sourcePath ++ "\"",
   "echo \"Current directory: $(pwd)\"",
   "echo \"Starting envSetup.sh execution...\"",
   "source envSetup.sh"]

/-- `commands.join(' && ')` (route.ts line 359). -/
def fullCommand (isolatedPath sourcePath : String) : String :=
  String.intercalate " && " (commandList isolatedPath sourcePath)

/-- Everything the accepted request hands to the SSH task. -/
structure SshPlan where
  host : String
  username : String
  password : String
  userKey : String
  folderName : String
  command : String
deriving DecidableEq

/-- Outcome of the pre-connection phase: HTTP 400, HTTP 429, or a
streaming response whose background task will open the SSH
connection. -/
inductive PostOutcome where
  | badRequest
  | duplicate
  | stream (plan : SshPlan)
deriving DecidableEq

/-- The pre-connection phase of the POST handler (route.ts lines
169-316): run-name extraction, the required-parameter check, isolated
folder naming, the duplicate-execution guard, the guard (re)write and
the scheduled eviction. Returns the outcome, the updated guard map, and
the list of newly scheduled deletions (key, fire time). -/
def postPlan (r : PostRequest) (guard : GuardMap) (d : JsDate) (nowMs : Int) :
    PostOutcome × GuardMap × List (String × Int) :=
  let runName := computeRunName r.file
  if jsFalsy (reqIp r) || jsFalsy (reqHostname r) || jsFalsy (reqPassword r) then
    (.badRequest, guard, [])
  else
    let ip := (reqIp r).getD ""
    let hostname := (reqHostname r).getD ""
    let password := (reqPassword r).getD ""
    let folder := runName ++ "-" ++ timestampString d
    let isolatedPath := "/home/" ++ hostname ++ "/" ++ folder
    let sourcePath := "/home/" ++ hostname ++ "/loading"
    let userKey := hostname ++ "-" ++ runName
    let accept : PostOutcome × GuardMap × List (String × Int) :=
      (.stream ⟨ip, hostname, password, userKey, folder,
          fullCommand isolatedPath sourcePath⟩,
       fun k => if k = userKey then some nowMs else guard k,
       [(userKey, nowMs + 30000)])
    match guard userKey with
    | some lastExecution =>
      if nowMs - lastExecution < 2000 then (.duplicate, guard, [])
      else accept
    | none => accept

/-- The dedup key `${hostname}-${runName}` of route.ts line 287. -/
def dedupKey (r : PostRequest) : String :=
  (reqHostname r).getD "" ++ "-" ++ computeRunName r.file

/-- C1: for every acquisition attempt on the execution guard with key
`K = hostname + '-' + sanitized run name`: if an entry for `K` exists
and its age is strictly below the 2-second TTL, the request is rejected
with the retryable duplicate outcome (HTTP 429), no SSH connection is
attempted (the outcome carries no plan) and the stored map is returned
unmodified; otherwise the entry for `K` is (re)written with the current
time, all other keys are untouched, and a deletion of `K` is scheduled
30 seconds (30000 ms) later. -/
theorem C1_guard_ttl (r : PostRequest) (guard : GuardMap) (d : JsDate) (nowMs : Int)
    (hip : jsFalsy (reqIp r) = false) (hhn : jsFalsy (reqHostname r) = false)
    (hpw : jsFalsy (reqPassword r) = false) :
    (∀ t, guard (dedupKey r) = some t → nowMs - t < 2000 →
        postPlan r guard d nowMs = (.duplicate, guard, []))
    ∧ ((guard (dedupKey r) = none ∨
          ∃ t, guard (dedupKey r) = some t ∧ 2000 ≤ nowMs - t) →
        ∃ plan g', postPlan r guard d nowMs =
            (.stream plan, g', [(dedupKey r, nowMs + 30000)])
          ∧ plan.userKey = dedupKey r
          ∧ g' (dedupKey r) = some nowMs
          ∧ ∀ k, k ≠ dedupKey r → g' k = guard k) := by
  have hkey : ((reqHostname r).getD "" ++ "-" ++ computeRunName r.file) = dedupKey r := rfl
  have hcond : (jsFalsy (reqIp r) || jsFalsy (reqHostname r) || jsFalsy (reqPassword r))
      = false := by rw [hip, hhn, hpw]; rfl
  constructor
  · intro t ht hlt
    simp only [postPlan, hcond, hkey, ht]
    simp [hlt]
  · intro hfree
    simp only [postPlan, hcond, hkey, Bool.false_eq_true, if_false]
    rcases hfree with hnone | ⟨t, ht, hge⟩
    · simp only [hnone]
      exact ⟨_, _, rfl, rfl, by simp, fun k hk => by simp [hk]⟩
    · simp only [ht]
      rw [if_neg (by omega)]
      exact ⟨_, _, rfl, rfl, by simp, fun k hk => by simp [hk]⟩

/-- Witness for C1 at a concrete fresh-duplicate input. -/
theorem C1_guard_ttl_witness :
    (jsFalsy (reqIp ⟨none, some ⟨some "10.0.0.1", some "alice", some "pw"⟩⟩) = false
      ∧ jsFalsy (reqHostname ⟨none, some ⟨some "10.0.0.1", some "alice", some "pw"⟩⟩) = false
      ∧ jsFalsy (reqPassword ⟨none, some ⟨some "10.0.0.1", some "alice", some "pw"⟩⟩) = false)
    ∧ ((∀ t, (fun k => if k = "alice-DefaultRun" then some (0 : Int) else none)
            (dedupKey ⟨none, some ⟨some "10.0.0.1", some "alice", some "pw"⟩⟩) = some t →
          (500 : Int) - t < 2000 →
          postPlan ⟨none, some ⟨some "10.0.0.1", some "alice", some "pw"⟩⟩
            (fun k => if k = "alice-DefaultRun" then some (0 : Int) else none)
            ⟨5, 1, 2024, 14, 5⟩ 500 =
            (.duplicate, fun k => if k = "alice-DefaultRun" then some (0 : Int) else none, []))
      ∧ (((fun k => if k = "alice-DefaultRun" then some (0 : Int) else none)
            (dedupKey ⟨none, some ⟨some "10.0.0.1", some "alice", some "pw"⟩⟩) = none ∨
          ∃ t, (fun k => if k = "alice-DefaultRun" then some (0 : Int) else none)
            (dedupKey ⟨none, some ⟨some "10.0.0.1", some "alice", some "pw"⟩⟩) = some t
            ∧ 2000 ≤ (500 : Int) - t) →
          ∃ plan g', postPlan ⟨none, some ⟨some "10.0.0.1", some "alice", some "pw"⟩⟩
              (fun k => if k = "alice-DefaultRun" then some (0 : Int) else none)
              ⟨5, 1, 2024, 14, 5⟩ 500 =
              (.stream plan, g',
                [(dedupKey ⟨none, some ⟨some "10.0.0.1", some "alice", some "pw"⟩⟩,
                  (500 : Int) + 30000)])
            ∧ plan.userKey = dedupKey ⟨none, some ⟨some "10.0.0.1", some "alice", some "pw"⟩⟩
            ∧ g' (dedupKey ⟨none, some ⟨some "10.0.0.1", some "alice", some "pw"⟩⟩)
                = some (500 : Int)
            ∧ ∀ k, k ≠ dedupKey ⟨none, some ⟨some "10.0.0.1", some "alice", some "pw"⟩⟩ →
                g' k = (fun k => if k = "alice-DefaultRun" then some (0 : Int) else none) k)) :=
  ⟨⟨by decide, by decide, by decide⟩,
   C1_guard_ttl ⟨none, some ⟨some "10.0.0.1", some "alice", some "pw"⟩⟩
     (fun k => if k = "alice-DefaultRun" then some (0 : Int) else none)
     ⟨5, 1, 2024, 14, 5⟩ 500 (by decide) (by decide) (by decide)⟩

/-! ## Claim C5 (corrected) and claim C9 -/

/-- C5 counterexample: a request with host, identity and secret present
but no descriptor file at all is not rejected with HTTP 400 — the
handler proceeds to the streaming path, contradicting the claim that a
missing descriptor is rejected before any SSH connection. -/
theorem C5_missing_descriptor_cex :
    (postPlan ⟨none, some ⟨some "10.0.0.1", some "alice", some "pw"⟩⟩
        (fun _ => none) ⟨5, 1, 2024, 14, 5⟩ 0).1 ≠ PostOutcome.badRequest
    ∧ ∃ p, (postPlan ⟨none, some ⟨some "10.0.0.1", some "alice", some "pw"⟩⟩
        (fun _ => none) ⟨5, 1, 2024, 14, 5⟩ 0).1 = PostOutcome.stream p :=
  ⟨by decide, ⟨_, rfl⟩⟩

/-- C5 (amended): for every execution request in which host, identity or
secret is missing (absent or empty), the request is rejected with HTTP
400 before any SSH connection is opened, with no guard entry written and
no eviction scheduled. A missing descriptor file does not cause
rejection. -/
theorem C5_missing_params (r : PostRequest) (guard : GuardMap) (d : JsDate) (nowMs : Int)
    (h : jsFalsy (reqIp r) = true ∨ jsFalsy (reqHostname r) = true ∨
      jsFalsy (reqPassword r) = true) :
    postPlan r guard d nowMs = (.badRequest, guard, []) := by
  have hcond : (jsFalsy (reqIp r) || jsFalsy (reqHostname r) || jsFalsy (reqPassword r))
      = true := by rcases h with h | h | h <;> simp [h]
  simp only [postPlan, hcond, if_true]

/-- Witness for C5 (amended): a request with no connection details. -/
theorem C5_missing_params_witness :
    (jsFalsy (reqIp ⟨none, none⟩) = true ∨ jsFalsy (reqHostname ⟨none, none⟩) = true ∨
      jsFalsy (reqPassword ⟨none, none⟩) = true)
    ∧ postPlan ⟨none, none⟩ (fun _ => none) ⟨5, 1, 2024, 14, 5⟩ 0
        = (.badRequest, fun _ => none, []) :=
  ⟨Or.inl (by decide),
   C5_missing_params ⟨none, none⟩ (fun _ => none) ⟨5, 1, 2024, 14, 5⟩ 0 (Or.inl (by decide))⟩

theorem firstTruthy_none (g : Json) (ks : List String)
    (h : ∀ k ∈ ks, jTruthy (g.getField k) = false) : firstTruthy g ks = none := by
  induction ks with
  | nil => rfl
  | cons k ks ih =>
    have hk := h k (List.mem_cons_self k ks)
    simp only [firstTruthy, hk, Bool.false_eq_true, if_false]
    exact ih fun k' hk' => h k' (List.mem_cons_of_mem _ hk')

theorem extractValue_none (fileName : String) (j : Json)
    (h1 : jTruthy ((j.getField "gitParams").bind (fun g => g.getField "branchName")) = false)
    (h2 : jTruthy ((j.getField "gitParms").bind (fun g => g.getField "branchName")) = false)
    (h3 : jTruthy (j.getField "branchName") = false)
    (h4 : ∀ k ∈ possibleKeys,
      jTruthy ((j.getField "gitParams").bind (fun g => g.getField k)) = false)
    (h5 : jTruthy (j.getField "run_name") = false)
    (h6 : jTruthy (j.getField "name") = false)
    (h7 : fileName = "" ∨ fileName = "data.json") :
    extractValue fileName j = none := by
  have hfn : (!(fileName == "") && !(fileName == "data.json")) = false := by
    rcases h7 with h | h <;> subst h <;> decide
  simp only [extractValue, h1, h2, h3, h5, h6, hfn, Bool.false_eq_true, if_false]
  by_cases hgp : jTruthy (Json.getField j "gitParams") = true
  · simp only [hgp, if_true]
    cases hv : Json.getField j "gitParams" with
    | none => rfl
    | some g =>
      by_cases hto : typeofObject g = true
      · simp only [hto, if_true]
        refine firstTruthy_none g possibleKeys fun k hk => ?_
        have hb := h4 k hk
        rw [hv] at hb
        simpa using hb
      · rw [Bool.not_eq_true] at hto
        simp only [hto, Bool.false_eq_true, if_false]
  · rw [Bool.not_eq_true] at hgp
    simp only [hgp, Bool.false_eq_true, if_false]

theorem runNameFromParsed_default (fileName : String) (j : Json)
    (h : extractValue fileName j = none) :
    runNameFromParsed fileName j = "DefaultRun" := by
  by_cases hn : j.isNull = true
  · simp only [runNameFromParsed, hn, if_true]
  · rw [Bool.not_eq_true] at hn
    simp only [runNameFromParsed, hn, Bool.false_eq_true, if_false, h]
    decide

/-- C9: a request whose descriptor file is absent, unparsable as JSON,
or contains none of the recognized name fields (no truthy
`gitParams.branchName`, `gitParms.branchName`, root `branchName`,
alternative key spellings inside `gitParams`, `run_name` or `name`, and
a default or empty client file name) is not rejected: given valid
connection details and no fresh guard entry it proceeds under the
default run name `DefaultRun`, whose dedup key and isolated folder name
are derived from `DefaultRun`. -/
theorem C9_default_run (r : PostRequest) (guard : GuardMap) (d : JsDate) (nowMs : Int)
    (hip : jsFalsy (reqIp r) = false) (hhn : jsFalsy (reqHostname r) = false)
    (hpw : jsFalsy (reqPassword r) = false)
    (hguard : guard ((reqHostname r).getD "" ++ "-" ++ "DefaultRun") = none)
    (hfile : r.file = none
      ∨ (∃ fe, r.file = some fe ∧ fe.parsed = none)
      ∨ (∃ fe j, r.file = some fe ∧ fe.parsed = some j
          ∧ jTruthy ((j.getField "gitParams").bind (fun g => g.getField "branchName")) = false
          ∧ jTruthy ((j.getField "gitParms").bind (fun g => g.getField "branchName")) = false
          ∧ jTruthy (j.getField "branchName") = false
          ∧ (∀ k ∈ possibleKeys,
              jTruthy ((j.getField "gitParams").bind (fun g => g.getField k)) = false)
          ∧ jTruthy (j.getField "run_name") = false
          ∧ jTruthy (j.getField "name") = false
          ∧ (fe.name = "" ∨ fe.name = "data.json"))) :
    computeRunName r.file = "DefaultRun"
    ∧ ∃ plan g', postPlan r guard d nowMs
        = (.stream plan, g', [((reqHostname r).getD "" ++ "-" ++ "DefaultRun", nowMs + 30000)])
      ∧ plan.userKey = (reqHostname r).getD "" ++ "-" ++ "DefaultRun"
      ∧ plan.folderName = "DefaultRun" ++ "-" ++ timestampString d := by
  have hrn : computeRunName r.file = "DefaultRun" := by
    rcases hfile with h | ⟨fe, hfe, hp⟩ | ⟨fe, j, hfe, hp, h1, h2, h3, h4, h5, h6, h7⟩
    · rw [h]; rfl
    · rw [hfe]; simp only [computeRunName, hp]
    · rw [hfe]
      simp only [computeRunName, hp]
      exact runNameFromParsed_default _ _ (extractValue_none _ _ h1 h2 h3 h4 h5 h6 h7)
  have hcond : (jsFalsy (reqIp r) || jsFalsy (reqHostname r) || jsFalsy (reqPassword r))
      = false := by rw [hip, hhn, hpw]; rfl
  refine ⟨hrn, ?_⟩
  simp only [postPlan, hcond, Bool.false_eq_true, if_false, hrn, hguard]
  exact ⟨_, _, rfl, rfl, rfl⟩

/-- Witness for C9: a request with no descriptor file at all. -/
theorem C9_default_run_witness :
    (jsFalsy (reqIp ⟨none, some ⟨some "10.0.0.1", some "alice", some "pw"⟩⟩) = false
      ∧ (fun (_ : String) => (none : Option Int))
          ((reqHostname ⟨none, some ⟨some "10.0.0.1", some "alice", some "pw"⟩⟩).getD ""
            ++ "-" ++ "DefaultRun") = none
      ∧ (⟨none, some ⟨some "10.0.0.1", some "alice", some "pw"⟩⟩ : PostRequest).file = none)
    ∧ (computeRunName (⟨none, some ⟨some "10.0.0.1", some "alice", some "pw"⟩⟩ :
          PostRequest).file = "DefaultRun"
      ∧ ∃ plan g', postPlan ⟨none, some ⟨some "10.0.0.1", some "alice", some "pw"⟩⟩
            (fun _ => none) ⟨5, 1, 2024, 14, 5⟩ 7
            = (.stream plan, g',
              [((reqHostname ⟨none, some ⟨some "10.0.0.1", some "alice", some "pw"⟩⟩).getD ""
                  ++ "-" ++ "DefaultRun", (7 : Int) + 30000)])
          ∧ plan.userKey
              = (reqHostname ⟨none, some ⟨some "10.0.0.1", some "alice", some "pw"⟩⟩).getD ""
                ++ "-" ++ "DefaultRun"
          ∧ plan.folderName = "DefaultRun" ++ "-" ++ timestampString ⟨5, 1, 2024, 14, 5⟩) :=
  ⟨⟨by decide, rfl, rfl⟩,
   C9_default_run ⟨none, some ⟨some "10.0.0.1", some "alice", some "pw"⟩⟩
     (fun _ => none) ⟨5, 1, 2024, 14, 5⟩ 7 (by decide) (by decide) (by decide) rfl
     (Or.inl rfl)⟩

/-! ## The output streamer (route.ts lines 390-430) -/

/-- Event kinds of the newline-delimited JSON streaming protocol. -/
inductive EvKind where
  | status
  | stdout
  | stderr
  | error
  | success
deriving DecidableEq

/-- One streamed event. -/
structure OutputEvent where
  kind : EvKind
  message : String
deriving DecidableEq

/-- A terminal event closes the stream: `success` or `error`. -/
def isTerminalKind : EvKind → Bool
  | .error => true
  | .success => true
  | _ => false

/-- What the remote command stream delivers to the handlers of route.ts
lines 390-430: a chunk on the normal channel, a chunk on the error
channel, or the close with the exit status code. -/
inductive ChunkEv where
  | out (s : String)
  | err (s : String)
  | close (code : Int)
deriving DecidableEq

def isCloseEv : ChunkEv → Bool
  | .close _ => true
  | _ => false

/-- The sentinel phrase of route.ts line 416. -/
def sentinel : String := "Deactivating conda"

/-- State of one request's streaming response: the events written so
far, whether `writer.close()` has run, and whether `stream.close()` has
been requested (the sentinel path). -/
structure StreamState where
  events : List OutputEvent
  writerClosed : Bool
  closeRequested : Bool
deriving DecidableEq

def initStream : StreamState := ⟨[], false, false⟩

/-- `writer.write(...)`: appends an event unless the writer has been
closed. -/
def emitEvent (st : StreamState) (e : OutputEvent) : StreamState :=
  if st.writerClosed then st else { st with events := st.events ++ [e] }

/-- The single terminal event written by the `close` handler
(route.ts lines 393-398). -/
def closeEvent (folder : String) (code : Int) : OutputEvent :=
  if code = 0 then
    ⟨.success, "Isolated environment " ++ folder ++ " setup completed successfully"⟩
  else
    ⟨.error, "Isolated environment " ++ folder ++ " setup failed with exit code "
      ++ toString code⟩

/-- One step of the three stream handlers (route.ts lines 390-430):
`close` writes the terminal event and closes the writer; each data
handler trims the chunk, writes it as one event when non-empty, and the
normal-channel handler additionally requests `stream.close()` when the
trimmed chunk contains the sentinel. -/
def stepStream (folder : String) (st : StreamState) : ChunkEv → StreamState
  | .close code =>
    let st' := emitEvent st (closeEvent folder code)
    { st' with writerClosed := true }
  | .out s =>
    let ds := jsTrim s
    let st' := if !(ds == "") then emitEvent st ⟨.stdout, ds⟩ else st
    if hasSubstr ds sentinel then { st' with closeRequested := true } else st'
  | .err s =>
    let ds := jsTrim s
    if !(ds == "") then emitEvent st ⟨.stderr, ds⟩ else st

/-- Process a whole remote-stream trace from the initial state. -/
def runStream (folder : String) (trace : List ChunkEv) : StreamState :=
  trace.foldl (stepStream folder) initStream

/-- The at-most-one event produced by a data chunk: the trimmed chunk,
tagged with its channel, when non-empty. -/
def chunkEvents : ChunkEv → Option OutputEvent
  | .out s => if !(jsTrim s == "") then some ⟨.stdout, jsTrim s⟩ else none
  | .err s => if !(jsTrim s == "") then some ⟨.stderr, jsTrim s⟩ else none
  | .close _ => none

theorem foldl_no_close (folder : String) (trace : List ChunkEv) :
    ∀ st : StreamState, st.writerClosed = false →
    (∀ e ∈ trace, isCloseEv e = false) →
    (trace.foldl (stepStream folder) st).events
        = st.events ++ trace.filterMap chunkEvents
    ∧ (trace.foldl (stepStream folder) st).writerClosed = false := by
  induction trace with
  | nil => intro st hst _; exact ⟨by simp, hst⟩
  | cons e rest ih =>
    intro st hst htr
    have hstep : (stepStream folder st e).events
          = st.events ++ (chunkEvents e).toList
        ∧ (stepStream folder st e).writerClosed = false := by
      cases e with
      | close code => exact absurd (htr _ (List.mem_cons_self _ _)) (by simp [isCloseEv])
      | out s =>
        by_cases hds : (!(jsTrim s == "")) = true
        · by_cases hsen : hasSubstr (jsTrim s) sentinel = true
          · simp [stepStream, chunkEvents, hds, hsen, emitEvent, hst]
          · rw [Bool.not_eq_true] at hsen
            simp [stepStream, chunkEvents, hds, hsen, emitEvent, hst]
        · rw [Bool.not_eq_true] at hds
          by_cases hsen : hasSubstr (jsTrim s) sentinel = true
          · simp [stepStream, chunkEvents, hds, hsen, emitEvent, hst]
          · rw [Bool.not_eq_true] at hsen
            simp [stepStream, chunkEvents, hds, hsen, emitEvent, hst]
      | err s =>
        by_cases hds : (!(jsTrim s == "")) = true
        · simp [stepStream, chunkEvents, hds, emitEvent, hst]
        · rw [Bool.not_eq_true] at hds
          simp [stepStream, chunkEvents, hds, emitEvent, hst]
    have hrest := ih (stepStream folder st e) hstep.2
      (fun e' he' => htr e' (List.mem_cons_of_mem _ he'))
    refine ⟨?_, hrest.2⟩
    rw [List.foldl_cons, hrest.1, hstep.1, List.filterMap_cons]
    cases h : chunkEvents e <;> simp [h, List.append_assoc]

theorem foldl_writer_closed (folder : String) (trace : List ChunkEv) :
    ∀ st : StreamState, st.writerClosed = true →
    (trace.foldl (stepStream folder) st).events = st.events
    ∧ (trace.foldl (stepStream folder) st).writerClosed = true := by
  induction trace with
  | nil => intro st hst; exact ⟨rfl, hst⟩
  | cons e rest ih =>
    intro st hst
    have hstep : (stepStream folder st e).events = st.events
        ∧ (stepStream folder st e).writerClosed = true := by
      cases e with
      | close code => simp [stepStream, emitEvent, hst]
      | out s =>
        by_cases hsen : hasSubstr (jsTrim s) sentinel = true
        · simp [stepStream, emitEvent, hst, hsen]
        · rw [Bool.not_eq_true] at hsen
          simp [stepStream, emitEvent, hst, hsen]
      | err s => simp [stepStream, emitEvent, hst]
    have hrest := ih (stepStream folder st e) hstep.2
    exact ⟨by rw [List.foldl_cons, hrest.1, hstep.1], hrest.2⟩

theorem chunkEvents_not_terminal (e : ChunkEv) (oe : OutputEvent)
    (h : chunkEvents e = some oe) : isTerminalKind oe.kind = false := by
  cases e with
  | close code => exact absurd h (by simp [chunkEvents])
  | out s =>
    by_cases hds : (!(jsTrim s == "")) = true
    · simp only [chunkEvents, hds, if_true, Option.some_inj] at h
      rw [← h]
      rfl
    · rw [Bool.not_eq_true] at hds
      simp [chunkEvents, hds] at h
  | err s =>
    by_cases hds : (!(jsTrim s == "")) = true
    · simp only [chunkEvents, hds, if_true, Option.some_inj] at h
      rw [← h]
      rfl
    · rw [Bool.not_eq_true] at hds
      simp [chunkEvents, hds] at h

/-- C2: for every execution whose remote command stream closes with exit
status `c` after a close-free prefix of data chunks, exactly one
terminal event appears in the output — `success` when `c = 0`, otherwise
`error` whose message carries the exit code — it is the last event,
nothing delivered after the close is written, and the writer is closed
immediately after it. -/
theorem C2_terminal_event (folder : String) (pre post : List ChunkEv) (c : Int)
    (hpre : ∀ e ∈ pre, isCloseEv e = false) :
    ((runStream folder (pre ++ ChunkEv.close c :: post)).events.filter
        (fun e => isTerminalKind e.kind)).length = 1
    ∧ (runStream folder (pre ++ ChunkEv.close c :: post)).events.getLast?
        = some (closeEvent folder c)
    ∧ isTerminalKind (closeEvent folder c).kind = true
    ∧ ((closeEvent folder c).kind = .success ↔ c = 0)
    ∧ (c ≠ 0 → (closeEvent folder c).message
        = "Isolated environment " ++ folder ++ " setup failed with exit code "
          ++ toString c)
    ∧ (runStream folder (pre ++ ChunkEv.close c :: post)).writerClosed = true := by
  have hpreRun := foldl_no_close folder pre initStream rfl hpre
  set st1 := pre.foldl (stepStream folder) initStream with hst1
  have hclose : (stepStream folder st1 (ChunkEv.close c)).events
        = st1.events ++ [closeEvent folder c]
      ∧ (stepStream folder st1 (ChunkEv.close c)).writerClosed = true := by
    simp [stepStream, emitEvent, hpreRun.2]
  have hpostRun := foldl_writer_closed folder post
    (stepStream folder st1 (ChunkEv.close c)) hclose.2
  have hev : (runStream folder (pre ++ ChunkEv.close c :: post)).events
      = (pre.filterMap chunkEvents) ++ [closeEvent folder c] := by
    rw [runStream, List.foldl_append, List.foldl_cons, hpostRun.1, hclose.1,
      hpreRun.1]
    simp [initStream]
  have hwc : (runStream folder (pre ++ ChunkEv.close c :: post)).writerClosed = true := by
    rw [runStream, List.foldl_append, List.foldl_cons]
    exact hpostRun.2
  have hfilterPre : (pre.filterMap chunkEvents).filter
      (fun e => isTerminalKind e.kind) = [] := by
    rw [List.filter_eq_nil_iff]
    intro oe hoe
    obtain ⟨e, _, he⟩ := List.mem_filterMap.mp hoe
    simp [chunkEvents_not_terminal e oe he]
  have hterm : isTerminalKind (closeEvent folder c).kind = true := by
    by_cases hc : c = 0 <;> simp [closeEvent, isTerminalKind, hc]
  refine ⟨?_, ?_, hterm, ?_, ?_, hwc⟩
  · rw [hev, List.filter_append, hfilterPre]
    simp [hterm]
  · rw [hev]
    simp
  · by_cases hc : c = 0 <;> simp [closeEvent, hc]
  · intro hc
    simp [closeEvent, hc]

/-- Witness for C2 at a concrete successful trace. -/
theorem C2_terminal_event_witness :
    (∀ e ∈ [ChunkEv.out "Starting envSetup.sh execution..."], isCloseEv e = false)
    ∧ (((runStream "env" ([ChunkEv.out "Starting envSetup.sh execution..."]
          ++ ChunkEv.close 0 :: [])).events.filter
            (fun e => isTerminalKind e.kind)).length = 1
      ∧ (runStream "env" ([ChunkEv.out "Starting envSetup.sh execution..."]
          ++ ChunkEv.close 0 :: [])).events.getLast? = some (closeEvent "env" 0)
      ∧ isTerminalKind (closeEvent "env" 0).kind = true
      ∧ ((closeEvent "env" 0).kind = .success ↔ (0 : Int) = 0)
      ∧ ((0 : Int) ≠ 0 → (closeEvent "env" 0).message
          = "Isolated environment " ++ "env" ++ " setup failed with exit code "
            ++ toString (0 : Int))
      ∧ (runStream "env" ([ChunkEv.out "Starting envSetup.sh execution..."]
          ++ ChunkEv.close 0 :: [])).writerClosed = true) :=
  ⟨by decide,
   C2_terminal_event "env" [ChunkEv.out "Starting envSetup.sh execution..."] [] 0
     (by decide)⟩

/-- C6 counterexample: a single normal-channel chunk containing an
embedded newline is NOT segmented into lines — it produces exactly one
`stdout` event carrying the whole trimmed chunk, not one event per
non-empty line. -/
theorem C6_no_line_segmentation_cex :
    (runStream "env" [ChunkEv.out "line one\nline two"]).events
      = [⟨EvKind.stdout, "line one\nline two"⟩]
    ∧ (runStream "env" [ChunkEv.out "line one\nline two"]).events
      ≠ [⟨EvKind.stdout, "line one"⟩, ⟨EvKind.stdout, "line two"⟩] := by
  constructor
  · decide
  · decide

/-- C6 (amended): each chunk arriving on either output channel is
trimmed of leading and trailing whitespace; a chunk whose trimmed
content is non-empty becomes exactly one `stdout` (normal channel) or
`stderr` (error channel) event carrying the entire trimmed chunk —
chunks are not split into lines — emitted in arrival order; a chunk that
trims to empty produces no event. -/
theorem C6_chunk_events (folder : String) (trace : List ChunkEv)
    (h : ∀ e ∈ trace, isCloseEv e = false) :
    (runStream folder trace).events = trace.filterMap chunkEvents :=
  (foldl_no_close folder trace initStream rfl h).1

/-- Witness for C6 (amended): a mixed trace with a whitespace-only
chunk. -/
theorem C6_chunk_events_witness :
    (∀ e ∈ [ChunkEv.out "  alpha ", ChunkEv.err " \n ", ChunkEv.out "b\nc"],
      isCloseEv e = false)
    ∧ (runStream "env" [ChunkEv.out "  alpha ", ChunkEv.err " \n ", ChunkEv.out "b\nc"]).events
      = List.filterMap chunkEvents
          [ChunkEv.out "  alpha ", ChunkEv.err " \n ", ChunkEv.out "b\nc"] :=
  ⟨by decide,
   C6_chunk_events "env" [ChunkEv.out "  alpha ", ChunkEv.err " \n ", ChunkEv.out "b\nc"]
     (by decide)⟩

/-! ## Claim C7: sentinel detection -/

theorem isPrefixOf_append_self (n r : List Char) : n.isPrefixOf (n ++ r) = true := by
  induction n with
  | nil => simp [List.isPrefixOf]
  | cons c t ih => simp [List.isPrefixOf, ih]

theorem occursIn_of_isPrefixOf (n h : List Char) (hp : n.isPrefixOf h = true) :
    occursIn n h = true := by
  cases h with
  | nil =>
    cases n with
    | nil => rfl
    | cons c t => simp [List.isPrefixOf] at hp
  | cons c t => simp [occursIn, hp]

theorem occursIn_append (n l r : List Char) : occursIn n (l ++ n ++ r) = true := by
  induction l with
  | nil => simpa using occursIn_of_isPrefixOf n (n ++ r) (isPrefixOf_append_self n r)
  | cons c t ih =>
    show occursIn n (c :: (t ++ n ++ r)) = true
    rw [occursIn, Bool.or_eq_true]
    exact Or.inr ih

theorem isPrefixOf_decomp : ∀ (n h : List Char), n.isPrefixOf h = true → ∃ r, h = n ++ r := by
  intro n
  induction n with
  | nil => exact fun h _ => ⟨h, rfl⟩
  | cons a n ih =>
    intro h hp
    cases h with
    | nil => simp [List.isPrefixOf] at hp
    | cons b t =>
      simp only [List.isPrefixOf, Bool.and_eq_true, beq_iff_eq] at hp
      obtain ⟨r, hr⟩ := ih t hp.2
      exact ⟨r, by rw [hp.1, hr]; rfl⟩

theorem occursIn_decomp : ∀ (h n : List Char), occursIn n h = true → ∃ l r, h = l ++ n ++ r := by
  intro h
  induction h with
  | nil =>
    intro n hn
    have hn' : n = [] := by
      cases n with
      | nil => rfl
      | cons a t => simp [occursIn, List.isEmpty] at hn
    exact ⟨[], [], by simp [hn']⟩
  | cons c t ih =>
    intro n hn
    rw [occursIn, Bool.or_eq_true] at hn
    rcases hn with hp | ho
    · obtain ⟨r, hr⟩ := isPrefixOf_decomp n (c :: t) hp
      exact ⟨[], r, by simp [hr]⟩
    · obtain ⟨l, r, hr⟩ := ih n ho
      exact ⟨c :: l, r, by simp [hr]⟩

theorem dropWhile_through (c : Char) (hc : jsWs c = false) (l t : List Char) :
    ∃ l', (l ++ c :: t).dropWhile jsWs = l' ++ c :: t := by
  induction l with
  | nil => exact ⟨[], by simp [List.dropWhile, hc]⟩
  | cons a l ih =>
    by_cases ha : jsWs a = true
    · obtain ⟨l', hl'⟩ := ih
      exact ⟨l', by simp [List.dropWhile_cons, ha, hl']⟩
    · rw [Bool.not_eq_true] at ha
      exact ⟨a :: l, by simp [List.dropWhile_cons, ha]⟩

theorem occursIn_trimChars (c1 : Char) (t1 : List Char) (c2 : Char) (t2 : List Char)
    (n : List Char) (hn1 : n = c1 :: t1) (hc1 : jsWs c1 = false)
    (hn2 : n.reverse = c2 :: t2) (hc2 : jsWs c2 = false)
    (cs : List Char) (h : occursIn n cs = true) :
    occursIn n (trimChars cs) = true := by
  obtain ⟨l, r, hr⟩ := occursIn_decomp cs n h
  obtain ⟨l1, hl1⟩ := dropWhile_through c1 hc1 l (t1 ++ r)
  obtain ⟨l2, hl2⟩ := dropWhile_through c2 hc2 r.reverse (t2 ++ l1.reverse)
  have e1 : (l ++ n ++ r).dropWhile jsWs = l1 ++ n ++ r := by
    rw [hn1]
    simpa [List.append_assoc] using hl1
  have e2 : (l1 ++ n ++ r).reverse = r.reverse ++ (c2 :: (t2 ++ l1.reverse)) := by
    simp [List.reverse_append, List.append_assoc, hn2]
  have e3 : trimChars (l ++ n ++ r) = l1 ++ n ++ l2.reverse := by
    simp only [trimChars]
    rw [e1, e2, hl2]
    have hrw : c2 :: (t2 ++ l1.reverse) = n.reverse ++ l1.reverse := by rw [hn2]; rfl
    rw [hrw]
    simp [List.reverse_append, List.append_assoc]
  rw [hr, e3]
  exact occursIn_append n l1 l2.reverse

/-- C7: for every run, a chunk on the normal-output channel containing
the sentinel phrase "Deactivating conda" makes the streamer request
closure of the remote command stream (regardless of whether the remote
process has exited), while a chunk on the error channel never changes
the closure request. -/
theorem C7_sentinel (folder : String) (st : StreamState) (s : String)
    (h : hasSubstr s "Deactivating conda" = true) :
    (stepStream folder st (ChunkEv.out s)).closeRequested = true
    ∧ ∀ (st' : StreamState) (s' : String),
        (stepStream folder st' (ChunkEv.err s')).closeRequested = st'.closeRequested := by
  constructor
  · have htrim : hasSubstr (jsTrim s) sentinel = true := by
      have hlist : occursIn ("Deactivating conda".toList) (trimChars s.toList) = true :=
        occursIn_trimChars 'D' ("eactivating conda".toList) 'a'
          ("dnoc gnitavitcaeD".toList) ("Deactivating conda".toList)
          (by decide) (by decide) (by decide) (by decide) s.toList h
      exact hlist
    simp only [stepStream, htrim, if_true]
  · intro st' s'
    by_cases hds : (!(jsTrim s' == "")) = true
    · by_cases hw : st'.writerClosed = true
      · simp [stepStream, hds, emitEvent, hw]
      · rw [Bool.not_eq_true] at hw
        simp [stepStream, hds, emitEvent, hw]
    · rw [Bool.not_eq_true] at hds
      simp [stepStream, hds]

/-- Witness for C7 at a concrete chunk containing the sentinel. -/
theorem C7_sentinel_witness :
    hasSubstr "Cleaning up\nDeactivating conda environment" "Deactivating conda" = true
    ∧ ((stepStream "env" initStream
          (ChunkEv.out "Cleaning up\nDeactivating conda environment")).closeRequested = true
      ∧ ∀ (st' : StreamState) (s' : String),
          (stepStream "env" st' (ChunkEv.err s')).closeRequested = st'.closeRequested) :=
  ⟨by decide,
   C7_sentinel "env" initStream "Cleaning up\nDeactivating conda environment" (by decide)⟩

/-! ## Claim C10: guard eviction timers (route.ts lines 285-311) -/

/-- The guard plus its pending `setTimeout` deletions, each recorded as
(key, fire time). -/
structure GuardSys where
  entries : GuardMap
  timers : List (String × Int)

def guardInit : GuardSys := ⟨fun _ => none, []⟩

inductive AcqResult where
  | accepted
  | rejected
deriving DecidableEq

/-- One acquisition attempt (route.ts lines 288-311): reject when a
fresh entry exists; otherwise (re)write the entry with `now` and
schedule an unconditional deletion 30000 ms later. Existing timers are
never cancelled or rescheduled. -/
def acqStep (sys : GuardSys) (key : String) (now : Int) : AcqResult × GuardSys :=
  let accept : AcqResult × GuardSys :=
    (.accepted,
     ⟨fun k => if k = key then some now else sys.entries k,
      sys.timers ++ [(key, now + 30000)]⟩)
  match sys.entries key with
  | some lastExecution =>
    if now - lastExecution < 2000 then (.rejected, sys) else accept
  | none => accept

/-- A scheduled timer firing (route.ts lines 309-311): it deletes its
key unconditionally, whatever value the entry holds by then. -/
def fireStep (sys : GuardSys) (key : String) (fireAt : Int) : GuardSys :=
  ⟨fun k => if k = key then none else sys.entries k,
   sys.timers.erase (key, fireAt)⟩

/-- C10: every accepted acquisition of key `K` appends one unconditional
deletion of `K` scheduled 30 seconds later and leaves all previously
scheduled timers in place (never cancelled or rescheduled); a firing
timer deletes its key unconditionally; consequently, when `K` is
re-acquired at `t1` after the TTL but before the first timer fires, the
first acquisition's timer deletes the newer entry, removing it less than
30 seconds after its own (re)write. -/
theorem C10_stale_timer (key : String) (t0 t1 : Int)
    (h1 : 2000 ≤ t1 - t0) (h2 : t1 < t0 + 30000) :
    (∀ (sys : GuardSys) (k : String) (now : Int),
        (acqStep sys k now).1 = .accepted →
        (acqStep sys k now).2.timers = sys.timers ++ [(k, now + 30000)])
    ∧ (∀ (sys : GuardSys) (k : String) (fireAt : Int),
        (fireStep sys k fireAt).entries k = none)
    ∧ ((acqStep guardInit key t0).1 = .accepted
      ∧ (acqStep (acqStep guardInit key t0).2 key t1).1 = .accepted
      ∧ (acqStep (acqStep guardInit key t0).2 key t1).2.entries key = some t1
      ∧ (acqStep (acqStep guardInit key t0).2 key t1).2.timers
          = [(key, t0 + 30000), (key, t1 + 30000)]
      ∧ (fireStep (acqStep (acqStep guardInit key t0).2 key t1).2 key
          (t0 + 30000)).entries key = none
      ∧ (t0 + 30000) - t1 < 30000) := by
  refine ⟨?_, ?_, ?_⟩
  · intro sys k now hacc
    by_cases he : ∃ t, sys.entries k = some t
    · obtain ⟨t, ht⟩ := he
      by_cases hfresh : now - t < 2000
      · exact absurd hacc (by simp [acqStep, ht, hfresh])
      · simp [acqStep, ht, hfresh]
    · rw [not_exists] at he
      have hnone : sys.entries k = none := by
        cases hv : sys.entries k with
        | none => rfl
        | some t => exact absurd hv (he t)
      simp [acqStep, hnone]
  · intro sys k fireAt
    simp [fireStep]
  · have hs1 : acqStep guardInit key t0
        = (.accepted, ⟨fun k => if k = key then some t0 else none,
            [(key, t0 + 30000)]⟩) := by
      simp [acqStep, guardInit]
    have hstale : ¬ (t1 - t0 < 2000) := by omega
    refine ⟨by rw [hs1], ?_, ?_, ?_, ?_, by omega⟩
    · rw [hs1]
      simp [acqStep, hstale]
    · rw [hs1]
      simp [acqStep, hstale]
    · rw [hs1]
      simp [acqStep, hstale]
    · simp [fireStep]

/-- Witness for C10 at concrete times. -/
theorem C10_stale_timer_witness :
    ((2000 : Int) ≤ 5000 - 0 ∧ (5000 : Int) < 0 + 30000)
    ∧ ((∀ (sys : GuardSys) (k : String) (now : Int),
          (acqStep sys k now).1 = .accepted →
          (acqStep sys k now).2.timers = sys.timers ++ [(k, now + 30000)])
      ∧ (∀ (sys : GuardSys) (k : String) (fireAt : Int),
          (fireStep sys k fireAt).entries k = none)
      ∧ ((acqStep guardInit "alice-Run" 0).1 = .accepted
        ∧ (acqStep (acqStep guardInit "alice-Run" 0).2 "alice-Run" 5000).1 = .accepted
        ∧ (acqStep (acqStep guardInit "alice-Run" 0).2 "alice-Run" 5000).2.entries
            "alice-Run" = some 5000
        ∧ (acqStep (acqStep guardInit "alice-Run" 0).2 "alice-Run" 5000).2.timers
            = [("alice-Run", (0 : Int) + 30000), ("alice-Run", (5000 : Int) + 30000)]
        ∧ (fireStep (acqStep (acqStep guardInit "alice-Run" 0).2 "alice-Run" 5000).2
            "alice-Run" ((0 : Int) + 30000)).entries "alice-Run" = none
        ∧ ((0 : Int) + 30000) - 5000 < 30000)) :=
  ⟨⟨by decide, by decide⟩, C10_stale_timer "alice-Run" 0 5000 (by decide) (by decide)⟩

/-! ## The session store (sessionStore.ts, session/route.ts, the
credential-check route) -/

/-- One stored session record (sessionStore.ts `SessionData`); the
secret is never stored. -/
structure SessionData where
  ip : String
  hostname : String
  expiresAt : Int
deriving DecidableEq

/-- The in-memory `sessionStore` map. -/
def SessionStore := String → Option SessionData

def setSession (token : String) (data : SessionData) (st : SessionStore) : SessionStore :=
  fun k => if k = token then some data else st k

def getSession (st : SessionStore) (token : String) : Option SessionData :=
  st token

def deleteSession (token : String) (st : SessionStore) : SessionStore :=
  fun k => if k = token then none else st k

/-- The responses of the session-validation POST handler
(session/route.ts lines 4-51). -/
inductive SessionResponse where
  | missingToken
  | invalidToken
  | expired
  | ok (ip hostname : String) (expiresAt : Int)
deriving DecidableEq

/-- HTTP status of each response. -/
def httpStatus : SessionResponse → Nat
  | .missingToken => 400
  | .invalidToken => 401
  | .expired => 401
  | .ok _ _ _ => 200

/-- The session-validation POST handler: missing token is 400, unknown
token is 401, an expired entry is deleted and 401 returned (lazy
expiry), otherwise the session fields are returned. -/
def sessionPost (st : SessionStore) (token : String) (now : Int) :
    SessionResponse × SessionStore :=
  if token == "" then (.missingToken, st)
  else
    match getSession st token with
    | none => (.invalidToken, st)
    | some s =>
      if s.expiresAt < now then (.expired, deleteSession token st)
      else (.ok s.ip s.hostname s.expiresAt, st)

/-- Token issuance on a successful credential check (the `ready` handler
of the auth route, lines 34-54): the session is stored with a 30-day
expiry and the secret is dropped. -/
def issueSession (st : SessionStore) (token ip hostname : String) (now : Int) :
    SessionStore :=
  setSession token ⟨ip, hostname, now + 30 * 24 * 60 * 60 * 1000⟩ st

/-- C4: for every host and identity whose issuance succeeds, validating
the fresh token at or before its expiry returns the stored host and
identity; validating it past the expiry yields an invalid result with
HTTP 401 and deletes the record, so a subsequent store lookup finds the
token absent. -/
theorem C4_session_roundtrip (st : SessionStore) (token ip hostname : String)
    (issuedAt tv1 tv2 : Int) (htok : ¬ token = "")
    (hlive : tv1 ≤ issuedAt + 30 * 24 * 60 * 60 * 1000)
    (hpast : issuedAt + 30 * 24 * 60 * 60 * 1000 < tv2) :
    sessionPost (issueSession st token ip hostname issuedAt) token tv1
      = (.ok ip hostname (issuedAt + 30 * 24 * 60 * 60 * 1000),
         issueSession st token ip hostname issuedAt)
    ∧ (sessionPost (issueSession st token ip hostname issuedAt) token tv2).1 = .expired
    ∧ httpStatus (sessionPost (issueSession st token ip hostname issuedAt) token tv2).1
        = 401
    ∧ getSession (sessionPost (issueSession st token ip hostname issuedAt) token tv2).2
        token = none := by
  have htokb : (token == "") = false := by
    rw [beq_eq_false_iff_ne]
    exact htok
  have hget : getSession (issueSession st token ip hostname issuedAt) token
      = some ⟨ip, hostname, issuedAt + 30 * 24 * 60 * 60 * 1000⟩ := by
    simp [getSession, issueSession, setSession]
  refine ⟨?_, ?_, ?_, ?_⟩
  · simp only [sessionPost, htokb, Bool.false_eq_true, if_false, hget]
    rw [if_neg (by omega)]
  · simp only [sessionPost, htokb, Bool.false_eq_true, if_false, hget]
    rw [if_pos (by omega)]
  · simp only [sessionPost, htokb, Bool.false_eq_true, if_false, hget]
    rw [if_pos (by omega)]
    rfl
  · simp only [sessionPost, htokb, Bool.false_eq_true, if_false, hget]
    rw [if_pos (by omega)]
    simp [getSession, deleteSession]

/-- Witness for C4 at concrete values. -/
theorem C4_session_roundtrip_witness :
    (¬ "tok" = "" ∧ (100 : Int) ≤ 0 + 30 * 24 * 60 * 60 * 1000
      ∧ (0 : Int) + 30 * 24 * 60 * 60 * 1000 < 2592000001)
    ∧ (sessionPost (issueSession (fun _ => none) "tok" "10.0.0.1" "alice" 0) "tok" 100
        = (.ok "10.0.0.1" "alice" ((0 : Int) + 30 * 24 * 60 * 60 * 1000),
           issueSession (fun _ => none) "tok" "10.0.0.1" "alice" 0)
      ∧ (sessionPost (issueSession (fun _ => none) "tok" "10.0.0.1" "alice" 0) "tok"
          2592000001).1 = .expired
      ∧ httpStatus (sessionPost (issueSession (fun _ => none) "tok" "10.0.0.1" "alice" 0)
          "tok" 2592000001).1 = 401
      ∧ getSession (sessionPost (issueSession (fun _ => none) "tok" "10.0.0.1" "alice" 0)
          "tok" 2592000001).2 "tok" = none) :=
  ⟨⟨by decide, by decide, by decide⟩,
   C4_session_roundtrip (fun _ => none) "tok" "10.0.0.1" "alice" 0 100 2592000001
     (by decide) (by decide) (by decide)⟩

end VacLab
